import Mathlib

/-!
Verification development for the PageViewerBot repository
(`src/web_automation_demo.py`).  The Python source is shallowly embedded:
pure computations become Lean functions over `ℚ`, `List Char` and `List`,
random draws become explicit oracle parameters, and fallible browser-driver
calls become `Except` values.  Each section names the Python symbol it
embeds.
-/

/-! ### Strings as character lists, and the Python `in` (substring) operator -/

/-- Embeds Python prefix matching on strings (used to implement `in`). -/
def prefixOfStr : List Char → List Char → Bool
  | [], _ => true
  | _ :: _, [] => false
  | c :: cs, d :: ds => c = d && prefixOfStr cs ds

/-- Embeds the Python substring test `needle in hay` on strings. -/
def substrOf (needle : List Char) : List Char → Bool
  | [] => prefixOfStr needle []
  | d :: ds => prefixOfStr needle (d :: ds) || substrOf needle ds

/-- Embeds Python `str.lower()` (ASCII-adequate for the words the code uses). -/
def lowerStr (s : List Char) : List Char := s.map Char.toLower

/-! ### Candidate elements

A `PageElement` is the geometry/attribute snapshot that
`AdvancedWebAutomation._score_elements` reads from a live WebElement:
`location['y']`, `size`, `tag_name`, `text`, and the `class` attribute
(`None` when absent).  `scoreOk` records whether those reads succeed; in the
Python code a `StaleElementReferenceException` or any other error raised
while reading them makes the `except` branches drop the element. -/

structure PageElement where
  y : ℚ
  width : ℚ
  height : ℚ
  tagName : List Char
  text : List Char
  classAttr : Option (List Char)
  scoreOk : Bool
deriving DecidableEq

/-- Embeds the word list `high_priority_words` of `_score_elements`. -/
def highPriorityWords : List (List Char) :=
  ["submit".toList, "search".toList, "login".toList, "next".toList,
   "continue".toList, "accept".toList]

/-- Embeds the deterministic accumulation of `score` inside the `try` block of
`AdvancedWebAutomation._score_elements` (everything before the
`random.uniform(0, curiosity_level * 0.3)` term), line by line:
position bonus, size bonus, tag bonus, text bonus, class bonus. -/
def scoreDet (e : PageElement) : ℚ :=
  let s0 : ℚ := 0
  let s1 : ℚ := if e.y < 800 then s0 + 3/10 else s0
  let s2 : ℚ := if 100 < e.width ∧ 30 < e.height then s1 + 2/10 else s1
  let tag : List Char := lowerStr e.tagName
  let s3 : ℚ :=
    if tag = "button".toList then s2 + 3/10
    else if tag = "a".toList then s2 + 25/100
    else if tag = "input".toList then s2 + 2/10
    else s2
  let txt : List Char := lowerStr e.text
  let s4 : ℚ :=
    if highPriorityWords.any (fun w => substrOf w txt) then s3 + 4/10 else s3
  let cls : List Char := e.classAttr.getD []
  let s5 : ℚ :=
    if substrOf "primary".toList cls || substrOf "main".toList cls then s4 + 2/10
    else s4
  s5

/-! Spec-side restatement of the deterministic sub-score, written from the
words of the specification ("sum of: 0.3 if vertical position < 800; 0.2 if
width>100 and height>30; tag bonus (button 0.3, anchor 0.25, input 0.2,
else 0); 0.4 if visible text contains a high-priority word
case-insensitively; 0.2 if class attribute contains primary or main"),
to be compared with `scoreDet`. -/

/-- Spec-side: 0.3 if the vertical position is below 800. -/
def positionBonus (e : PageElement) : ℚ := if e.y < 800 then 3/10 else 0

/-- Spec-side: 0.2 if width > 100 and height > 30. -/
def sizeBonus (e : PageElement) : ℚ :=
  if 100 < e.width ∧ 30 < e.height then 2/10 else 0

/-- Spec-side: tag bonus 0.3 for button, 0.25 for anchor, 0.2 for input. -/
def tagBonus (e : PageElement) : ℚ :=
  if lowerStr e.tagName = "button".toList then 3/10
  else if lowerStr e.tagName = "a".toList then 25/100
  else if lowerStr e.tagName = "input".toList then 2/10
  else 0

/-- Spec-side: 0.4 if the visible text contains a high-priority word,
case-insensitively. -/
def textBonus (e : PageElement) : ℚ :=
  if highPriorityWords.any (fun w => substrOf w (lowerStr e.text)) then 4/10 else 0

/-- Spec-side: 0.2 if the class attribute contains "primary" or "main". -/
def classBonus (e : PageElement) : ℚ :=
  if substrOf "primary".toList (e.classAttr.getD []) ||
     substrOf "main".toList (e.classAttr.getD []) then 2/10 else 0

/-- Spec-side deterministic sub-score: the sum of the five bonuses. -/
def specDetScore (e : PageElement) : ℚ :=
  positionBonus e + sizeBonus e + tagBonus e + textBonus e + classBonus e

/-! ### Stable descending sort

`_score_elements` ends with `scored.sort(key=lambda x: x[1], reverse=True)`.
Python's sort is stable and `reverse=True` keeps equal keys in their original
order, so its observable behaviour is that of a stable insertion sort that
puts an element before exactly those later elements whose score is ≤ its
own. -/

/-- Stable descending insertion by score: `x` goes in front of the first
element whose score is ≤ `x`'s score. -/
def insertByScore {α : Type} (x : α × ℚ) : List (α × ℚ) → List (α × ℚ)
  | [] => [x]
  | y :: ys => if y.2 ≤ x.2 then x :: y :: ys else y :: insertByScore x ys

/-- Stable sort, descending by score (the semantics of
`scored.sort(key=lambda x: x[1], reverse=True)`). -/
def sortByScoreDesc {α : Type} : List (α × ℚ) → List (α × ℚ)
  | [] => []
  | x :: xs => insertByScore x (sortByScoreDesc xs)

/-- Embeds the scoring loop of `_score_elements` before the final sort:
elements whose attribute reads fail are dropped; each surviving element, in
discovery order, gets `scoreDet` plus its own draw of the random term
(`rand i` is the i-th value returned by `random.uniform`). -/
def scoreRawList (els : List PageElement) (rand : ℕ → ℚ) :
    List (PageElement × ℚ) :=
  ((els.filter (fun e => e.scoreOk)).enum).map
    (fun p => (p.2, scoreDet p.2 + rand p.1))

/-- Embeds `AdvancedWebAutomation._score_elements`: score in discovery
order, then sort stably, descending by total score. -/
def score_elements (els : List PageElement) (rand : ℕ → ℚ) :
    List (PageElement × ℚ) :=
  sortByScoreDesc (scoreRawList els rand)

/-! ### Lemmas about the stable sort -/

theorem insertByScore_perm {α : Type} (x : α × ℚ) (l : List (α × ℚ)) :
    (insertByScore x l).Perm (x :: l) := by
  induction l with
  | nil => simp [insertByScore]
  | cons y ys ih =>
      by_cases h : y.2 ≤ x.2
      · simp [insertByScore, h]
      · simp only [insertByScore, if_neg h]
        exact (ih.cons y).trans (List.Perm.swap x y ys)

theorem sortByScoreDesc_perm {α : Type} (l : List (α × ℚ)) :
    (sortByScoreDesc l).Perm l := by
  induction l with
  | nil => simp [sortByScoreDesc]
  | cons x xs ih =>
      exact (insertByScore_perm x (sortByScoreDesc xs)).trans (ih.cons x)

theorem insertByScore_pairwise {α : Type} (x : α × ℚ) (l : List (α × ℚ))
    (hl : l.Pairwise (fun a b => b.2 ≤ a.2)) :
    (insertByScore x l).Pairwise (fun a b => b.2 ≤ a.2) := by
  induction l with
  | nil => simp [insertByScore]
  | cons y ys ih =>
      rcases List.pairwise_cons.mp hl with ⟨hy, hys⟩
      by_cases h : y.2 ≤ x.2
      · simp only [insertByScore, if_pos h]
        refine List.pairwise_cons.mpr ⟨?_, hl⟩
        intro b hb
        rcases List.mem_cons.mp hb with hb | hb
        · exact hb ▸ h
        · exact (hy b hb).trans h
      · simp only [insertByScore, if_neg h]
        refine List.pairwise_cons.mpr ⟨?_, ih hys⟩
        intro b hb
        have hmem := (insertByScore_perm x ys).mem_iff.mp hb
        rcases List.mem_cons.mp hmem with hb' | hb'
        · subst hb'
          exact le_of_not_le h
        · exact hy b hb'

theorem sortByScoreDesc_pairwise {α : Type} (l : List (α × ℚ)) :
    (sortByScoreDesc l).Pairwise (fun a b => b.2 ≤ a.2) := by
  induction l with
  | nil => simp [sortByScoreDesc]
  | cons x xs ih => exact insertByScore_pairwise x (sortByScoreDesc xs) ih

theorem filter_insertByScore {α : Type} (x : α × ℚ) (l : List (α × ℚ)) (q : ℚ) :
    (insertByScore x l).filter (fun a => a.2 = q) =
      if x.2 = q then x :: l.filter (fun a => a.2 = q)
      else l.filter (fun a => a.2 = q) := by
  induction l with
  | nil =>
      by_cases hx : x.2 = q <;> simp [insertByScore, List.filter, hx]
  | cons y ys ih =>
      by_cases h : y.2 ≤ x.2
      · rw [insertByScore, if_pos h]
        by_cases hx : x.2 = q <;> simp [List.filter, hx]
      · rw [insertByScore, if_neg h]
        have hygt : x.2 < y.2 := lt_of_not_le h
        by_cases hy : y.2 = q
        · have hx : ¬ x.2 = q := fun hx => (ne_of_lt hygt) (hx.trans hy.symm)
          simp [List.filter, hy, ih, hx]
        · by_cases hx : x.2 = q <;> simp [List.filter, hy, ih, hx]

theorem filter_sortByScoreDesc {α : Type} (l : List (α × ℚ)) (q : ℚ) :
    (sortByScoreDesc l).filter (fun a => a.2 = q) =
      l.filter (fun a => a.2 = q) := by
  induction l with
  | nil => simp [sortByScoreDesc]
  | cons x xs ih =>
      rw [sortByScoreDesc, filter_insertByScore]
      by_cases hx : x.2 = q <;> simp [List.filter, hx, ih]

/-! ### Embedding of `_select_elements_by_behavior`, Focused branch -/

/-- Embeds the `FOCUSED` branch of
`AdvancedWebAutomation._select_elements_by_behavior`:
`[e for e in scored_elements if e[1] > 0.6][:max_count]`. -/
def select_focused (scored : List (PageElement × ℚ)) (maxCount : ℕ) :
    List (PageElement × ℚ) :=
  (scored.filter (fun e => (6:ℚ)/10 < e.2)).take maxCount

/-! ### Demo inputs used by witnesses -/

/-- Concrete element: a large above-fold submit button. -/
def demoButton : PageElement :=
  ⟨100, 200, 50, "button".toList, "Submit".toList, some "btn primary".toList, true⟩

/-- Concrete element: a small link below the fold. -/
def demoLink : PageElement :=
  ⟨900, 40, 10, "a".toList, "more".toList, none, true⟩

/-- Concrete scored list, already in descending score order. -/
def demoScored : List (PageElement × ℚ) := [(demoButton, 1), (demoLink, 0)]

/-- C1: for every candidate element the deterministic part of the score
computed by `_score_elements` equals the sum of the position bonus (0.3 if
y < 800), size bonus (0.2 if width > 100 and height > 30), tag bonus
(button 0.3 / anchor 0.25 / input 0.2 / else 0), text bonus (0.4 on a
high-priority word, case-insensitively) and class bonus (0.2 if the class
attribute contains "primary" or "main"); this sub-total is a pure function
of the element alone, hence order-independent; and the returned list is
sorted descending by total score with a stable tie-break on discovery
order (filtering to any fixed score value preserves the pre-sort order). -/
theorem C1_score_elements_deterministic_and_sorted :
    (∀ e : PageElement, scoreDet e = specDetScore e) ∧
    (∀ l l' : List PageElement, l.Perm l' →
      (l.map scoreDet).Perm (l'.map scoreDet)) ∧
    (∀ els rand,
      (score_elements els rand).Pairwise (fun a b => b.2 ≤ a.2)) ∧
    (∀ els rand q,
      (score_elements els rand).filter (fun a => a.2 = q) =
        (scoreRawList els rand).filter (fun a => a.2 = q)) := by
  refine ⟨?_, ?_, ?_, ?_⟩
  · intro e
    simp only [scoreDet, specDetScore, positionBonus, sizeBonus, tagBonus,
      textBonus, classBonus]
    split_ifs <;> ring
  · intro l l' h
    exact h.map scoreDet
  · intro els rand
    exact sortByScoreDesc_pairwise _
  · intro els rand q
    exact filter_sortByScoreDesc _ q

/-- Witness for C1: the order-independence conjunct applied to the concrete
two-element list and its transposition. -/
theorem C1_score_elements_witness :
    (([demoButton, demoLink].map scoreDet)).Perm
      (([demoLink, demoButton].map scoreDet)) :=
  C1_score_elements_deterministic_and_sorted.2.1
    [demoButton, demoLink] [demoLink, demoButton]
    (List.Perm.swap demoLink demoButton [])

/-- C2: for every scored list and maxCount, the Focused selection has length
at most maxCount, every selected score exceeds 0.6, the selection is a
sublist of the input (hence in unchanged descending order), it equals the
whole filtered set when that set fits in maxCount, and it preserves
descending score order. -/
theorem C2_select_focused_spec (scored : List (PageElement × ℚ))
    (maxCount : ℕ) :
    (select_focused scored maxCount).length ≤ maxCount ∧
    (∀ e ∈ select_focused scored maxCount, (6:ℚ)/10 < e.2) ∧
    (select_focused scored maxCount).Sublist scored ∧
    ((scored.filter (fun e => (6:ℚ)/10 < e.2)).length ≤ maxCount →
      select_focused scored maxCount =
        scored.filter (fun e => (6:ℚ)/10 < e.2)) ∧
    (scored.Pairwise (fun a b => b.2 ≤ a.2) →
      (select_focused scored maxCount).Pairwise (fun a b => b.2 ≤ a.2)) := by
  refine ⟨?_, ?_, ?_, ?_, ?_⟩
  · exact le_trans (le_of_eq (List.length_take _ _)) (min_le_left _ _)
  · intro e he
    have h1 := List.mem_of_mem_take he
    have h2 := List.of_mem_filter h1
    exact of_decide_eq_true h2
  · exact (List.take_sublist _ _).trans (List.filter_sublist _)
  · intro hlen
    exact List.take_of_length_le hlen
  · intro hsorted
    exact List.Pairwise.sublist
      ((List.take_sublist _ _).trans (List.filter_sublist _)) hsorted

/-- Witness for C2: the Focused selection on a concrete sorted two-element
list, with both hypotheses discharged concretely. -/
theorem C2_select_focused_witness :
    (select_focused demoScored 5 =
      demoScored.filter (fun e => (6:ℚ)/10 < e.2)) ∧
    (select_focused demoScored 5).Pairwise (fun a b => b.2 ≤ a.2) :=
  ⟨(C2_select_focused_spec demoScored 5).2.2.2.1
      (by norm_num [demoScored, List.filter]),
   (C2_select_focused_spec demoScored 5).2.2.2.2
      (by norm_num [demoScored, List.pairwise_cons])⟩

/-! ### Embedding of `MouseMovement.bezier_curve` -/

/-- Point in the plane (`(x, y)` tuples in the Python code). -/
abbrev Point := ℚ × ℚ

/-- Embeds `np.linspace(0, 1, n)`: `n` evenly spaced samples over `[0,1]`
including both endpoints; numpy returns `[0.0]` for `n = 1` (the stop value
is not reached) and the empty array for `n = 0`. -/
def linspace01 : ℕ → List ℚ
  | 0 => []
  | 1 => [0]
  | n + 2 => (List.range (n + 2)).map (fun i : ℕ => (i : ℚ) / ((n : ℚ) + 1))

/-- Embeds the cubic Bezier formula evaluated inside the loop of
`MouseMovement.bezier_curve` at one parameter value `t`. -/
def bezierPoint (start c1 c2 stop : Point) (t : ℚ) : Point :=
  ((1-t)^3 * start.1 + 3*(1-t)^2*t * c1.1 + 3*(1-t)*t^2 * c2.1 + t^3 * stop.1,
   (1-t)^3 * start.2 + 3*(1-t)^2*t * c1.2 + 3*(1-t)*t^2 * c2.2 + t^3 * stop.2)

/-- Embeds `MouseMovement.bezier_curve` once the two control points are
fixed (either passed in by the caller or derived randomly). -/
def bezier_curve (start stop c1 c2 : Point) (numPoints : ℕ) : List Point :=
  (linspace01 numPoints).map (bezierPoint start c1 c2 stop)

/-- Embeds the control-point derivation of `bezier_curve` when
`control_points is None`: segment midpoint plus random offsets
`offX, offY ∈ [-100, 100]` on the first point, minus half of them on the
second. -/
def defaultControlPoints (start stop : Point) (offX offY : ℚ) :
    Point × Point :=
  (((start.1 + stop.1)/2 + offX, (start.2 + stop.2)/2 + offY),
   ((start.1 + stop.1)/2 - offX/2, (start.2 + stop.2)/2 - offY/2))

/-- Membership of `p` in the convex hull of the four points `a b c d`. -/
def inHull4 (p a b c d : Point) : Prop :=
  ∃ w1 w2 w3 w4 : ℚ, 0 ≤ w1 ∧ 0 ≤ w2 ∧ 0 ≤ w3 ∧ 0 ≤ w4 ∧
    w1 + w2 + w3 + w4 = 1 ∧
    p = (w1*a.1 + w2*b.1 + w3*c.1 + w4*d.1,
         w1*a.2 + w2*b.2 + w3*c.2 + w4*d.2)

theorem bezierPoint_zero (s c1 c2 e : Point) : bezierPoint s c1 c2 e 0 = s := by
  unfold bezierPoint
  refine Prod.ext ?_ ?_ <;> simp

theorem bezierPoint_one (s c1 c2 e : Point) : bezierPoint s c1 c2 e 1 = e := by
  unfold bezierPoint
  refine Prod.ext ?_ ?_ <;> simp

theorem linspace01_length (n : ℕ) : (linspace01 n).length = n := by
  match n with
  | 0 => rfl
  | 1 => rfl
  | n + 2 => simp only [linspace01, List.length_map, List.length_range]

theorem linspace01_mem_unit (n : ℕ) (t : ℚ) (ht : t ∈ linspace01 n) :
    0 ≤ t ∧ t ≤ 1 := by
  match n with
  | 0 => simp [linspace01] at ht
  | 1 =>
      simp [linspace01] at ht
      simp [ht]
  | n + 2 =>
      rw [linspace01, List.mem_map] at ht
      obtain ⟨i, hi, rfl⟩ := ht
      rw [List.mem_range] at hi
      have hpos : (0:ℚ) < (n : ℚ) + 1 := by positivity
      constructor
      · positivity
      · rw [div_le_one hpos]
        exact_mod_cast Nat.le_of_lt_succ hi

/-- C4 (amended): for every start, end, control points and point count `n`,
`bezier_curve` returns exactly `n` points evaluated at the `n` linspace
parameters; provided `n ≥ 1` the first point equals start exactly; provided
`n ≥ 2` the last point equals end exactly; and every returned point lies in
the convex hull of the start, the two control points and the end. -/
theorem C4_bezier_curve_spec (s e c1 c2 : Point) (n : ℕ) :
    (bezier_curve s e c1 c2 n).length = n ∧
    (1 ≤ n → (bezier_curve s e c1 c2 n).head? = some s) ∧
    (2 ≤ n → (bezier_curve s e c1 c2 n).getLast? = some e) ∧
    (∀ p ∈ bezier_curve s e c1 c2 n, inHull4 p s c1 c2 e) := by
  refine ⟨?_, ?_, ?_, ?_⟩
  · rw [bezier_curve, List.length_map, linspace01_length]
  · intro hn
    match n, hn with
    | 1, _ => simp [bezier_curve, linspace01, bezierPoint_zero]
    | (m+2), _ =>
        rw [bezier_curve, linspace01, List.range_succ_eq_map]
        simp [bezierPoint_zero]
  · intro hn
    match n, hn with
    | (m+2), _ =>
        rw [bezier_curve, linspace01, List.range_succ, List.map_append,
          List.map_append, List.map_singleton, List.map_singleton,
          List.getLast?_concat]
        have hne : ((m : ℚ) + 1) ≠ 0 := by positivity
        rw [Nat.cast_add, Nat.cast_one, div_self hne, bezierPoint_one]
  · intro p hp
    obtain ⟨t, ht, rfl⟩ := List.mem_map.mp hp
    obtain ⟨h0, h1⟩ := linspace01_mem_unit n t ht
    have hs : (0:ℚ) ≤ 1 - t := by linarith
    refine ⟨(1-t)^3, 3*(1-t)^2*t, 3*(1-t)*t^2, t^3, ?_, ?_, ?_, ?_, by ring, ?_⟩
    · exact pow_nonneg hs 3
    · exact mul_nonneg (mul_nonneg (by norm_num) (sq_nonneg _)) h0
    · exact mul_nonneg (mul_nonneg (by norm_num) hs) (sq_nonneg t)
    · exact pow_nonneg h0 3
    · simp only [bezierPoint, Prod.mk.injEq]

/-- Witness for C4: both endpoint conjuncts applied at the concrete curve
from `(0,0)` to `(1,0)` with two requested points. -/
theorem C4_bezier_curve_witness :
    (bezier_curve (0,0) (1,0) (0,0) (1,0) 2).head? = some ((0:ℚ),(0:ℚ)) ∧
    (bezier_curve (0,0) (1,0) (0,0) (1,0) 2).getLast? = some ((1:ℚ),(0:ℚ)) :=
  ⟨(C4_bezier_curve_spec (0,0) (1,0) (0,0) (1,0) 2).2.1 (by norm_num),
   (C4_bezier_curve_spec (0,0) (1,0) (0,0) (1,0) 2).2.2.1 (by norm_num)⟩

/-- C4 counterexample: with point count `n = 1`, `np.linspace(0, 1, 1)` is
`[0.0]`, so `bezier_curve` returns the single point `start`; for the curve
from `(0,0)` to `(1,0)` the last returned point is `(0,0)`, which is not
within any reasonable epsilon of the end point `(1,0)` — refuting the
claim that the last point equals the end for every point count. -/
theorem C4_counterexample :
    bezier_curve (0,0) (1,0) (0,0) (1,0) 1 = [((0:ℚ), (0:ℚ))] ∧
    ((0,0) : Point) ≠ ((1,0) : Point) := by
  constructor
  · simp [bezier_curve, linspace01, bezierPoint_zero]
  · intro h
    rw [Prod.ext_iff] at h
    exact absurd h.1 (by norm_num)

/-! ### Embedding of `UserBehavior.generate_persona` -/

/-- Embeds the `BehaviorPattern` enum. -/
inductive BehaviorPatternKind
  | casual | focused | explorer | scanner | researcher
deriving DecidableEq

/-- Embeds the `UserBehavior` dataclass. -/
structure UserBehaviorModel where
  pattern : BehaviorPatternKind
  reading_speed : ℚ
  typing_speed : ℚ
  mouse_precision : ℚ
  attention_span : ℚ
  curiosity_level : ℚ

/-- Random oracle for `random.uniform`: `u k a b` is the value returned by
the k-th `random.uniform(a, b)` call of the function being embedded. -/
structure UniformOracle where
  u : ℕ → ℚ → ℚ → ℚ

/-- An oracle is faithful when every draw lies in the requested closed
interval, which is the documented contract of `random.uniform(a, b)`. -/
def UniformOracle.Valid (r : UniformOracle) : Prop :=
  ∀ (k : ℕ) (a b : ℚ), a ≤ b → a ≤ r.u k a b ∧ r.u k a b ≤ b

/-- Embeds `UserBehavior.generate_persona`.  The Python code eagerly builds
the whole `patterns` table — 25 `random.uniform` draws in source order,
CASUAL first and RESEARCHER last, each with fields in the order
reading/typing/mouse/attention/curiosity — and then keeps only the entry of
the requested pattern. -/
def generate_persona (pattern : BehaviorPatternKind) (r : UniformOracle) :
    UserBehaviorModel :=
  let casualCfg : ℚ × ℚ × ℚ × ℚ × ℚ :=
    (r.u 0 200 250, r.u 1 2 4, r.u 2 (6/10) (8/10), r.u 3 10 30,
     r.u 4 (3/10) (5/10))
  let focusedCfg : ℚ × ℚ × ℚ × ℚ × ℚ :=
    (r.u 5 300 400, r.u 6 4 7, r.u 7 (8/10) (95/100), r.u 8 30 60,
     r.u 9 (1/10) (3/10))
  let explorerCfg : ℚ × ℚ × ℚ × ℚ × ℚ :=
    (r.u 10 250 350, r.u 11 3 5, r.u 12 (5/10) (7/10), r.u 13 5 15,
     r.u 14 (7/10) (9/10))
  let scannerCfg : ℚ × ℚ × ℚ × ℚ × ℚ :=
    (r.u 15 400 500, r.u 16 5 8, r.u 17 (6/10) (8/10), r.u 18 3 10,
     r.u 19 (4/10) (6/10))
  let researcherCfg : ℚ × ℚ × ℚ × ℚ × ℚ :=
    (r.u 20 150 200, r.u 21 3 5, r.u 22 (7/10) (9/10), r.u 23 60 120,
     r.u 24 (6/10) (8/10))
  let config : ℚ × ℚ × ℚ × ℚ × ℚ :=
    match pattern with
    | .casual => casualCfg
    | .focused => focusedCfg
    | .explorer => explorerCfg
    | .scanner => scannerCfg
    | .researcher => researcherCfg
  { pattern := pattern
    reading_speed := config.1
    typing_speed := config.2.1
    mouse_precision := config.2.2.1
    attention_span := config.2.2.2.1
    curiosity_level := config.2.2.2.2 }

/-- Spec-side interval table, written from the documented ranges of the
specification (5 patterns × 5 fields, closed intervals). -/
def personaRanges (p : BehaviorPatternKind) :
    (ℚ×ℚ) × (ℚ×ℚ) × (ℚ×ℚ) × (ℚ×ℚ) × (ℚ×ℚ) :=
  match p with
  | .casual => ((200,250),(2,4),(6/10,8/10),(10,30),(3/10,5/10))
  | .focused => ((300,400),(4,7),(8/10,95/100),(30,60),(1/10,3/10))
  | .explorer => ((250,350),(3,5),(5/10,7/10),(5,15),(7/10,9/10))
  | .scanner => ((400,500),(5,8),(6/10,8/10),(3,10),(4/10,6/10))
  | .researcher => ((150,200),(3,5),(7/10,9/10),(60,120),(6/10,8/10))

/-- Membership of a value in a closed interval given as a pair. -/
abbrev inRange (x : ℚ) (ab : ℚ × ℚ) : Prop := ab.1 ≤ x ∧ x ≤ ab.2

/-- C3: for every behavior pattern and every faithful random source, each of
the five numeric fields of the generated persona lies within the closed
interval documented for that pattern (Focused: reading speed in [300,400],
typing speed in [4,7], mouse precision in [0.8,0.95], attention span in
[30,60], curiosity in [0.1,0.3]; analogously for the other patterns). -/
theorem C3_generate_persona_ranges (r : UniformOracle) (hr : r.Valid)
    (p : BehaviorPatternKind) :
    inRange (generate_persona p r).reading_speed (personaRanges p).1 ∧
    inRange (generate_persona p r).typing_speed (personaRanges p).2.1 ∧
    inRange (generate_persona p r).mouse_precision (personaRanges p).2.2.1 ∧
    inRange (generate_persona p r).attention_span (personaRanges p).2.2.2.1 ∧
    inRange (generate_persona p r).curiosity_level (personaRanges p).2.2.2.2 := by
  cases p <;> dsimp only [personaRanges, generate_persona] <;>
    exact ⟨hr _ _ _ (by norm_num), hr _ _ _ (by norm_num),
      hr _ _ _ (by norm_num), hr _ _ _ (by norm_num), hr _ _ _ (by norm_num)⟩

/-- Oracle that always returns the lower endpoint of the interval. -/
def loOracle : UniformOracle := ⟨fun _ a _ => a⟩

theorem loOracle_valid : loOracle.Valid :=
  fun _ a _ h => ⟨le_refl a, h⟩

/-- Witness for C3: the focused persona generated from the lower-endpoint
oracle has its reading speed inside [300, 400]. -/
theorem C3_generate_persona_witness :
    inRange (generate_persona BehaviorPatternKind.focused loOracle).reading_speed
      (300, 400) :=
  (C3_generate_persona_ranges loOracle loOracle_valid
    BehaviorPatternKind.focused).1

/-! ### Embedding of `PageAnalyzer.find_interactive_elements` and
`PageAnalyzer._is_element_interactive` -/

/-- Driver-boundary failures: a detached element
(`StaleElementReferenceException`) or any other exception. -/
inductive DriverErr
  | stale
  | other
deriving DecidableEq

/-- A WebElement wrapper as selenium hands it to Python: `pyId` models the
Python object identity `id(element)` — every `find_elements` call builds
fresh wrapper objects, so wrappers from different calls have distinct
`pyId`s even when they refer to the same DOM node — while `node` identifies
the underlying DOM node. -/
structure Wrapper where
  pyId : ℕ
  node : ℕ
deriving DecidableEq

/-- Outcomes of the driver calls made by `_is_element_interactive`, in
source order: `is_displayed()`, `is_enabled()`, `size`
(width, height), and the in-viewport `execute_script`.  Each call may fail. -/
structure ElemProbe where
  displayed : Except DriverErr Bool
  enabled : Except DriverErr Bool
  size : Except DriverErr (ℚ × ℚ)
  inViewport : Except DriverErr Bool

/-- Embeds the `try` body of `_is_element_interactive` with driver failures
propagated: not-displayed-or-not-enabled check (short-circuit, as Python's
`or`), the minimum 5px size check, then the viewport check. -/
def interactiveBody (p : ElemProbe) : Except DriverErr Bool := do
  let disp ← p.displayed
  if !disp then
    return false
  else
    let en ← p.enabled
    if !en then
      return false
    else
      let sz ← p.size
      if sz.1 < 5 ∨ sz.2 < 5 then
        return false
      else
        let inv ← p.inViewport
        return inv

/-- Embeds `PageAnalyzer._is_element_interactive`: any exception raised in
the body (`StaleElementReferenceException` explicitly, anything else via the
generic handler) is caught and becomes the result `false`. -/
def is_element_interactive (p : ElemProbe) : Bool :=
  match interactiveBody p with
  | .ok b => b
  | .error _ => false

/-- Embeds the selector loop of `find_interactive_elements`: each selector
query either returns a list of wrappers or fails (the failure is caught,
logged and skipped); all results are concatenated in selector order. -/
def collectElements (queryResults : List (Except DriverErr (List Wrapper))) :
    List Wrapper :=
  queryResults.foldl
    (fun acc r => match r with | .ok found => acc ++ found | .error _ => acc) []

/-- Embeds the dedup-and-filter loop of `find_interactive_elements`: `seen`
accumulates `id(element)` values; a wrapper is appended when its id is new
and it passes the interactivity check; the id is recorded either way. -/
def dedupFilterLoop (interactive : Wrapper → Bool) :
    List Wrapper → List ℕ → List Wrapper
  | [], _ => []
  | w :: ws, seen =>
    if w.pyId ∈ seen then dedupFilterLoop interactive ws seen
    else if interactive w then
      w :: dedupFilterLoop interactive ws (w.pyId :: seen)
    else dedupFilterLoop interactive ws (w.pyId :: seen)

/-- Embeds `PageAnalyzer.find_interactive_elements`, parameterised by the
driver's answers to the selector queries and by the interactivity check. -/
def find_interactive_elements
    (queryResults : List (Except DriverErr (List Wrapper)))
    (interactive : Wrapper → Bool) : List Wrapper :=
  dedupFilterLoop interactive (collectElements queryResults) []

theorem dedupFilterLoop_sublist (f : Wrapper → Bool) (l : List Wrapper)
    (seen : List ℕ) : (dedupFilterLoop f l seen).Sublist l := by
  induction l generalizing seen with
  | nil => simp [dedupFilterLoop]
  | cons w ws ih =>
      by_cases h1 : w.pyId ∈ seen
      · simp only [dedupFilterLoop, if_pos h1]
        exact (ih seen).cons w
      · by_cases h2 : f w
        · simp only [dedupFilterLoop, if_neg h1, if_pos h2]
          exact (ih (w.pyId :: seen)).cons₂ w
        · simp only [dedupFilterLoop, if_neg h1, if_neg h2]
          exact (ih (w.pyId :: seen)).cons w

theorem dedupFilterLoop_nodup (f : Wrapper → Bool) (l : List Wrapper)
    (seen : List ℕ) :
    ((dedupFilterLoop f l seen).map Wrapper.pyId).Nodup ∧
    ∀ w ∈ dedupFilterLoop f l seen, w.pyId ∉ seen := by
  induction l generalizing seen with
  | nil => simp [dedupFilterLoop]
  | cons w ws ih =>
      by_cases h1 : w.pyId ∈ seen
      · simp only [dedupFilterLoop, if_pos h1]
        exact ih seen
      · by_cases h2 : f w
        · simp only [dedupFilterLoop, if_neg h1, if_pos h2]
          obtain ⟨hnd, hnotin⟩ := ih (w.pyId :: seen)
          refine ⟨?_, ?_⟩
          · rw [List.map_cons, List.nodup_cons]
            refine ⟨?_, hnd⟩
            intro hmem
            obtain ⟨v, hv, hvq⟩ := List.mem_map.mp hmem
            exact (hnotin v hv) (hvq ▸ List.mem_cons_self _ _)
          · intro v hv
            rcases List.mem_cons.mp hv with rfl | hv'
            · exact h1
            · intro hseen
              exact (hnotin v hv') (List.mem_cons_of_mem _ hseen)
        · simp only [dedupFilterLoop, if_neg h1, if_neg h2]
          obtain ⟨hnd, hnotin⟩ := ih (w.pyId :: seen)
          refine ⟨hnd, ?_⟩
          intro v hv hseen
          exact (hnotin v hv) (List.mem_cons_of_mem _ hseen)

theorem dedupFilterLoop_all (f : Wrapper → Bool) (l : List Wrapper)
    (seen : List ℕ) : ∀ w ∈ dedupFilterLoop f l seen, f w = true := by
  induction l generalizing seen with
  | nil => simp [dedupFilterLoop]
  | cons w ws ih =>
      by_cases h1 : w.pyId ∈ seen
      · simp only [dedupFilterLoop, if_pos h1]
        exact ih seen
      · by_cases h2 : f w
        · simp only [dedupFilterLoop, if_neg h1, if_pos h2]
          intro v hv
          rcases List.mem_cons.mp hv with rfl | hv'
          · exact h2
          · exact ih (w.pyId :: seen) v hv'
        · simp only [dedupFilterLoop, if_neg h1, if_neg h2]
          exact ih (w.pyId :: seen)

/-- C6 (amended): `find_interactive_elements` returns the union of the
selector matches deduplicated by Python wrapper identity (`id(element)`),
preserving first-seen order (the result is a sublist of the concatenated
matches, and its wrapper ids are pairwise distinct), with every retained
entry passing the interactivity filter.  Because wrapper identity — not DOM
node identity — is the dedup key, a node matched by several selectors can
still appear more than once; the node-identity dedup stated by the claim
does not hold (see the counterexample). -/
theorem C6_find_interactive_elements_spec
    (queryResults : List (Except DriverErr (List Wrapper)))
    (interactive : Wrapper → Bool) :
    (find_interactive_elements queryResults interactive).Sublist
      (collectElements queryResults) ∧
    ((find_interactive_elements queryResults interactive).map
        Wrapper.pyId).Nodup ∧
    (find_interactive_elements queryResults interactive).all interactive
      = true := by
  refine ⟨?_, ?_, ?_⟩
  · exact dedupFilterLoop_sublist _ _ _
  · exact (dedupFilterLoop_nodup _ _ _).1
  · rw [List.all_eq_true]
    exact dedupFilterLoop_all _ _ _

/-- Query results in which two different selectors both match the same DOM
node (node id 7): selenium returns a fresh wrapper object for each call, so
the two wrappers have distinct Python ids 0 and 1. -/
def dupQueryResults : List (Except DriverErr (List Wrapper)) :=
  [Except.ok [⟨0, 7⟩], Except.ok [⟨1, 7⟩]]

/-- C6 counterexample: on `dupQueryResults`, with every element passing the
interactivity check, `find_interactive_elements` keeps both wrappers of DOM
node 7 — two entries of the result refer to the same underlying node, so the
claimed deduplication by node identity is refuted. -/
theorem C6_counterexample :
    ¬ (find_interactive_elements dupQueryResults (fun _ => true)).Pairwise
        (fun a b => a.node ≠ b.node) := by
  decide

/-- C7: a stale-reference failure inside `_is_element_interactive` yields
the result `false` rather than an exception, and every element retained by
`find_interactive_elements` — whose filter is exactly this total Boolean
check — is one for which the check returned `true`; staleness is a result
value at this boundary and no stale-reference exception escapes to the
caller. -/
theorem C7_stale_yields_false :
    (∀ p : ElemProbe, interactiveBody p = Except.error DriverErr.stale →
      is_element_interactive p = false) ∧
    (∀ (queryResults : List (Except DriverErr (List Wrapper)))
        (probe : Wrapper → ElemProbe),
      ∀ w ∈ find_interactive_elements queryResults
          (fun w => is_element_interactive (probe w)),
        is_element_interactive (probe w) = true) := by
  constructor
  · intro p h
    simp [is_element_interactive, h]
  · intro queryResults probe w hw
    exact dedupFilterLoop_all _ _ _ w hw

/-- Probe of an element that went stale before the `is_displayed()` call. -/
def staleProbe : ElemProbe :=
  ⟨Except.error DriverErr.stale, Except.ok true, Except.ok (10, 10),
   Except.ok true⟩

/-- Probe of a healthy, visible, large-enough, in-viewport element. -/
def liveProbe : ElemProbe :=
  ⟨Except.ok true, Except.ok true, Except.ok (10, 10), Except.ok true⟩

/-- Witness for C7: the stale probe is reported as non-interactive, and the
single element found from a healthy probe did pass the check. -/
theorem C7_stale_yields_false_witness :
    is_element_interactive staleProbe = false ∧
    is_element_interactive ((fun _ : Wrapper => liveProbe) ⟨0, 7⟩) = true :=
  ⟨C7_stale_yields_false.1 staleProbe rfl,
   C7_stale_yields_false.2 [Except.ok [⟨0, 7⟩]] (fun _ => liveProbe)
     ⟨0, 7⟩ (by decide)⟩

/-! ### Embedding of `AdvancedWebAutomation.cleanup` -/

/-- Session state relevant to `cleanup`: whether `self.driver` is set (it is
assigned in `_setup_driver` and never cleared anywhere), the monitoring
flag, and counters of the externally visible operations `cleanup` performs —
the `export_session_data`/logging step and the `driver.quit()` call. -/
structure CleanupState where
  driverSet : Bool
  enableMonitoring : Bool
  exportCount : ℕ
  quitCount : ℕ
deriving DecidableEq

/-- Embeds `AdvancedWebAutomation.cleanup`: when `self.driver` is truthy it
exports the session data (if monitoring is enabled) and calls
`self.driver.quit()`; no statement ever resets `self.driver`. -/
def cleanup (s : CleanupState) : CleanupState :=
  if s.driverSet then
    let s1 := if s.enableMonitoring then
        { s with exportCount := s.exportCount + 1 }
      else s
    { s1 with quitCount := s1.quitCount + 1 }
  else s

/-- C8: the claim (and the spec's idempotence requirement) says a second
`cleanup` performs no further driver operations and leaves state unchanged;
but `cleanup` never clears `self.driver`, so its guard is still true on the
second call, which repeats the export and issues `driver.quit()` on the
already-quit handle: from a fresh monitored session, two calls perform two
quit operations, and the second call changes the state. -/
theorem C8_cleanup_second_call_not_noop :
    (cleanup (cleanup ⟨true, true, 0, 0⟩)).quitCount = 2 ∧
    (cleanup ⟨true, true, 0, 0⟩).quitCount = 1 ∧
    cleanup (cleanup ⟨true, true, 0, 0⟩) ≠ cleanup ⟨true, true, 0, 0⟩ := by
  decide

/-! ### Embedding of `AdvancedWebAutomation._handle_post_click` -/

/-- Embeds the navigation check of `_handle_post_click`: the code binds
`current_url = self.driver.current_url` and immediately compares it against
a second read of `self.driver.current_url`; `read k` is the k-th read of the
URL.  The result says whether the navigation-detected branch (the log and
the optional wait-and-`back()`) executes. -/
def post_click_nav_branch (read : ℕ → String) : Bool :=
  let current_url := read 0
  decide (current_url ≠ read 1)

/-- C9: whenever the two consecutive URL reads return the same value — i.e.
under any execution where the URL is deterministic between the two reads —
the navigation branch of `_handle_post_click` does not execute: comparing
the current URL against a second read of itself can never detect a
navigation. -/
theorem C9_post_click_nav_unreachable (read : ℕ → String)
    (h : read 0 = read 1) : post_click_nav_branch read = false := by
  simp [post_click_nav_branch, h]

/-- Witness for C9: the constant URL reader never triggers the branch. -/
theorem C9_post_click_nav_witness :
    post_click_nav_branch (fun _ => "https://example.com") = false :=
  C9_post_click_nav_unreachable (fun _ => "https://example.com") rfl

/-! ### Embedding of `AdvancedWebAutomation._handle_input` -/

/-- Driver commands a text-entry interaction can issue: `element.clear()`,
`element.send_keys(c)` for one character, and the backspace key press. -/
inductive InputCmd
  | clear
  | typeChar (c : Char)
  | backspace
deriving DecidableEq

/-- Random oracle for the input handler: `nat k` is the k-th raw integer
draw (feeding `random.randint` and `random.choice`), `typo` is the outcome
of the `random.random() < 0.1` typo test in `_type_like_human`, and
`typoChar` is the letter drawn for the typo. -/
structure PyRandom where
  nat : ℕ → ℕ
  typo : Bool
  typoChar : Char

/-- Models `random.randint(a, b)` from the k-th raw draw: a value in the
closed range `[a, b]`. -/
def randintModel (r : PyRandom) (k a b : ℕ) : ℕ := a + r.nat k % (b - a + 1)

/-- Models `random.choice(l)` from the k-th raw draw. -/
def choiceModel (r : PyRandom) (k : ℕ) (l : List String) : String :=
  l.getD (r.nat k % l.length) ""

/-- Embeds `_generate_realistic_text`: synthetic text chosen from the
placeholder/name attribute context (the code also reads the id attribute
but never uses it). -/
def generate_realistic_text (placeholder nameAttr : List Char)
    (r : PyRandom) : List Char :=
  if substrOf "name".toList (lowerStr placeholder) ||
     substrOf "name".toList (lowerStr nameAttr) then
    (choiceModel r 0 ["John Smith", "Jane Doe", "Alice Johnson"]).toList
  else if substrOf "email".toList (lowerStr placeholder) ||
     substrOf "email".toList (lowerStr nameAttr) then
    "user".toList ++ (toString (randintModel r 0 100 999)).toList ++
      "@example.com".toList
  else if substrOf "phone".toList (lowerStr placeholder) ||
     substrOf "phone".toList (lowerStr nameAttr) then
    "555-".toList ++ (toString (randintModel r 0 100 999)).toList ++
      "-".toList ++ (toString (randintModel r 1 1000 9999)).toList
  else if substrOf "search".toList (lowerStr placeholder) ||
     substrOf "search".toList (lowerStr nameAttr) then
    (choiceModel r 0 ["test query", "sample search", "demo"]).toList
  else
    "Test input ".toList ++ (toString (randintModel r 0 1 100)).toList

/-- Embeds `_type_like_human` as the sequence of driver commands it issues:
`element.clear()`, one `send_keys` per character of the text, and — when the
typo draw fires and the text is longer than 5 — one extra random character
followed by a backspace.  The randomized delays affect timing only, never
the command sequence. -/
def type_like_human (text : List Char) (r : PyRandom) : List InputCmd :=
  InputCmd.clear :: text.map InputCmd.typeChar ++
    (if r.typo ∧ 5 < text.length then
      [InputCmd.typeChar r.typoChar, InputCmd.backspace]
    else [])

/-- Embeds `element.get_attribute('type') or 'text'`: Python's `or` falls
through to `'text'` when the attribute read returns None (attribute
missing) or an empty (falsy) string. -/
def effectiveInputType (attr : Option (List Char)) : List Char :=
  match attr with
  | none => "text".toList
  | some s => if s = [] then "text".toList else s

/-- Embeds the digit string of the password branch:
`''.join(random.choices('123456789', k=4))`. -/
def passwordDigits (r : PyRandom) : List Char :=
  (List.range 4).map (fun k => "123456789".toList.getD (r.nat k % 9) '1')

/-- Embeds `AdvancedWebAutomation._handle_input`: dispatch on the declared
input type; only text, email, password and search produce typing, every
other type falls off the end of the if/elif chain and issues no driver
command at all. -/
def handle_input (attrType : Option (List Char))
    (placeholder nameAttr : List Char) (r : PyRandom) : List InputCmd :=
  let inputType := effectiveInputType attrType
  if inputType = "text".toList then
    type_like_human (generate_realistic_text placeholder nameAttr r) r
  else if inputType = "email".toList then
    type_like_human ("test".toList ++
      (toString (randintModel r 0 1000 9999)).toList ++
      "@example.com".toList) r
  else if inputType = "password".toList then
    type_like_human ("Test".toList ++ passwordDigits r ++ "!".toList) r
  else if inputType = "search".toList then
    type_like_human (choiceModel r 0
      ["python", "machine learning", "web development", "data science"]).toList r
  else []

/-- C10: for every input element whose declared type attribute is a
non-empty string other than text, email, password or search (checkbox,
radio, number, submit, ...), `_handle_input` issues no typing or
field-clearing command at all; a missing type attribute is treated exactly
as text; and whenever any command is issued, the effective type is one of
the four listed kinds. -/
theorem C10_handle_input_only_four_kinds :
    (∀ (s placeholder nameAttr : List Char) (r : PyRandom),
      s ≠ [] → s ≠ "text".toList → s ≠ "email".toList →
      s ≠ "password".toList → s ≠ "search".toList →
      handle_input (some s) placeholder nameAttr r = []) ∧
    (∀ (placeholder nameAttr : List Char) (r : PyRandom),
      handle_input none placeholder nameAttr r =
        handle_input (some "text".toList) placeholder nameAttr r) ∧
    (∀ (attr : Option (List Char)) (placeholder nameAttr : List Char)
        (r : PyRandom),
      handle_input attr placeholder nameAttr r ≠ [] →
      effectiveInputType attr = "text".toList ∨
      effectiveInputType attr = "email".toList ∨
      effectiveInputType attr = "password".toList ∨
      effectiveInputType attr = "search".toList) := by
  refine ⟨?_, ?_, ?_⟩
  · intro s placeholder nameAttr r hne h1 h2 h3 h4
    have het : effectiveInputType (some s) = s := by
      simp [effectiveInputType, hne]
    simp only [handle_input, het]
    rw [if_neg h1, if_neg h2, if_neg h3, if_neg h4]
  · intro placeholder nameAttr r
    simp [handle_input, effectiveInputType]
  · intro attr placeholder nameAttr r hne
    by_contra hall
    push_neg at hall
    obtain ⟨h1, h2, h3, h4⟩ := hall
    apply hne
    simp only [handle_input]
    rw [if_neg h1, if_neg h2, if_neg h3, if_neg h4]

/-- Witness for C10: a checkbox input issues no command, and the
default-text dispatch of an attribute-less input does issue commands whose
effective type is text. -/
theorem C10_handle_input_witness :
    handle_input (some "checkbox".toList) [] [] ⟨fun _ => 0, false, 'a'⟩ = [] ∧
    (effectiveInputType none = "text".toList ∨
     effectiveInputType none = "email".toList ∨
     effectiveInputType none = "password".toList ∨
     effectiveInputType none = "search".toList) :=
  ⟨C10_handle_input_only_four_kinds.1 "checkbox".toList [] []
      ⟨fun _ => 0, false, 'a'⟩ (by decide) (by decide) (by decide)
      (by decide) (by decide),
   C10_handle_input_only_four_kinds.2.2 none [] [] ⟨fun _ => 0, false, 'a'⟩
      (by decide)⟩

/-! ### Embedding of the default (Casual/Researcher) branch of
`_select_elements_by_behavior`

The branch calls `np.random.choice(len(scored), size, replace=False, p)`.
numpy draws `size` distinct indices, an index being drawable only while its
probability is non-zero, and raises
`ValueError: Fewer non-zero entries in p than size` when fewer than `size`
entries of `p` are non-zero.  The weights fed to it are the scores, which
the scorer only ever makes nonnegative, so non-zero means positive here. -/

/-- Error message of numpy's documented failure when `replace=False` and
`p` has fewer non-zero entries than the requested sample size. -/
def npErrFewNonzero : String := "Fewer non-zero entries in p than size"

theorem cons_eraseIdx_perm {α : Type} {l : List α} {j : ℕ} {x : α}
    (h : l[j]? = some x) : (x :: l.eraseIdx j).Perm l := by
  induction l generalizing j with
  | nil => simp at h
  | cons a as ih =>
      cases j with
      | zero =>
          rw [List.getElem?_cons_zero] at h
          injection h with h
          subst h
          rfl
      | succ m =>
          rw [List.getElem?_cons_succ] at h
          rw [List.eraseIdx_cons_succ]
          exact (List.Perm.swap a x _).trans ((ih h).cons a)

theorem countP_eraseIdx_of_true {α : Type} (p : α → Bool) {l : List α}
    {j : ℕ} {x : α} (h : l[j]? = some x) (hx : p x = true) :
    (l.eraseIdx j).countP p + 1 = l.countP p := by
  have hcnt := (cons_eraseIdx_perm h).countP_eq p
  rw [List.countP_cons, hx] at hcnt
  simpa using hcnt

theorem length_eraseIdx_of_some {α : Type} {l : List α} {j : ℕ} {x : α}
    (h : l[j]? = some x) : (l.eraseIdx j).length + 1 = l.length := by
  simpa using (cons_eraseIdx_perm h).length_eq

theorem cons_subperm_of_eraseIdx {α : Type} {l l' : List α} {j : ℕ} {x : α}
    (hx : l[j]? = some x) (h : l'.Subperm (l.eraseIdx j)) :
    (x :: l').Subperm l := by
  obtain ⟨u, hu, hsub⟩ := List.subperm_iff.mp h
  exact List.subperm_iff.mpr
    ⟨x :: u, (hu.cons x).trans (cons_eraseIdx_perm hx), hsub.cons₂ x⟩

theorem countP_enumFrom_pos {α : Type} (l : List (α × ℚ)) (n : ℕ) :
    ((l.enumFrom n).countP (fun q => 0 < q.2.2)) =
      l.countP (fun x => 0 < x.2) := by
  induction l generalizing n with
  | nil => rfl
  | cons a as ih => simp [List.enumFrom, List.countP_cons, ih]

theorem posIdx_length {α : Type} (avail : List (α × ℚ)) :
    ((avail.enum.filter (fun q => 0 < q.2.2)).map (fun q => q.1)).length =
      avail.countP (fun x => 0 < x.2) := by
  rw [List.length_map, ← List.countP_eq_length_filter, List.enum,
    countP_enumFrom_pos]

theorem posIdx_mem {α : Type} {avail : List (α × ℚ)} {j : ℕ}
    (hj : j ∈ (avail.enum.filter (fun q => 0 < q.2.2)).map (fun q => q.1)) :
    ∃ x, avail[j]? = some x ∧ 0 < x.2 := by
  obtain ⟨q, hq, hq1⟩ := List.mem_map.mp hj
  have hq2 : q ∈ avail.enum := (List.mem_filter.mp hq).1
  have hq3 := (List.mem_filter.mp hq).2
  have hget := List.mem_enum_iff_getElem?.mp hq2
  refine ⟨q.2, ?_, by exact_mod_cast of_decide_eq_true hq3⟩
  rw [← hq1]
  exact hget

/-- Models the draws of `np.random.choice(len(avail), size, replace=False,
p=weights/total)`: `size` successive draws; each draw picks (via the raw
generator value `pick t`) among the indices whose weight is still positive,
and the chosen entry is removed from the pool.  When no drawable index
remains the sample stops short — the numpy precondition check in
`select_default` rules that situation out before sampling starts. -/
def weightedSampleAux {α : Type} (pick : ℕ → ℕ) :
    ℕ → ℕ → List (α × ℚ) → List (α × ℚ)
  | _, 0, _ => []
  | t, k + 1, avail =>
    match (avail.enum.filter (fun q => 0 < q.2.2)).map (fun q => q.1) with
    | [] => []
    | i0 :: rest =>
      let j := (i0 :: rest).get
        ⟨pick t % (i0 :: rest).length, Nat.mod_lt _ (Nat.succ_pos _)⟩
      match avail[j]? with
      | some x => x :: weightedSampleAux pick (t+1) k (avail.eraseIdx j)
      | none => []

/-- Models the draws of `random.sample(population, k)`: `k` successive
uniform draws without replacement. -/
def uniformSampleAux {α : Type} (pick : ℕ → ℕ) : ℕ → ℕ → List α → List α
  | _, 0, _ => []
  | t, k + 1, avail =>
    match avail with
    | [] => []
    | a0 :: rest =>
      let j := pick t % (a0 :: rest).length
      (a0 :: rest).get ⟨j, Nat.mod_lt _ (Nat.succ_pos _)⟩ ::
        uniformSampleAux pick (t+1) k
          ((a0 :: rest).eraseIdx j)

theorem posIdx_get_some {α : Type} (avail : List (α × ℚ)) (i0 : ℕ)
    (rest : List ℕ)
    (heq : (avail.enum.filter (fun q => 0 < q.2.2)).map (fun q => q.1) =
      i0 :: rest)
    (n : ℕ) (hn : n < (i0 :: rest).length) :
    ∃ x, avail[(i0 :: rest).get ⟨n, hn⟩]? = some x ∧ 0 < x.2 := by
  apply posIdx_mem
  rw [heq]
  exact List.get_mem _ _ _

theorem weightedSampleAux_spec {α : Type} (pick : ℕ → ℕ) (k : ℕ) :
    ∀ (t : ℕ) (avail : List (α × ℚ)),
      k ≤ avail.countP (fun x => 0 < x.2) →
      (weightedSampleAux pick t k avail).length = k ∧
      (weightedSampleAux pick t k avail).Subperm avail ∧
      ∀ x ∈ weightedSampleAux pick t k avail, (0:ℚ) < x.2 := by
  induction k with
  | zero =>
      intro t avail _
      refine ⟨rfl, List.nil_subperm, ?_⟩
      intro x hx
      simp [weightedSampleAux] at hx
  | succ k ih =>
      intro t avail h
      rw [weightedSampleAux]
      split
      · rename_i heq
        have hlen := posIdx_length avail
        rw [heq] at hlen
        simp at hlen
        omega
      · rename_i i0 rest heq
        obtain ⟨x, hx, hxpos⟩ := posIdx_get_some avail i0 rest heq
          (pick t % (i0 :: rest).length) (Nat.mod_lt _ (Nat.succ_pos _))
        dsimp only
        rw [hx]
        have hcnt := countP_eraseIdx_of_true (fun y => decide (0 < y.2))
          hx (by simpa using hxpos)
        obtain ⟨ihlen, ihsub, ihpos⟩ := ih (t+1)
          (avail.eraseIdx ((i0 :: rest).get
            ⟨pick t % (i0 :: rest).length, Nat.mod_lt _ (Nat.succ_pos _)⟩))
          (by omega)
        refine ⟨by simpa using ihlen, cons_subperm_of_eraseIdx hx ihsub, ?_⟩
        intro y hy
        rcases List.mem_cons.mp hy with rfl | hy'
        · exact hxpos
        · exact ihpos y hy'

theorem uniformSampleAux_spec {α : Type} (pick : ℕ → ℕ) (k : ℕ) :
    ∀ (t : ℕ) (avail : List α), k ≤ avail.length →
      (uniformSampleAux pick t k avail).length = k ∧
      (uniformSampleAux pick t k avail).Subperm avail := by
  induction k with
  | zero =>
      intro t avail _
      exact ⟨rfl, List.nil_subperm⟩
  | succ k ih =>
      intro t avail h
      cases avail with
      | nil => simp at h
      | cons a0 rest =>
          rw [uniformSampleAux]
          have hj : pick t % (a0 :: rest).length < (a0 :: rest).length :=
            Nat.mod_lt _ (Nat.succ_pos _)
          have hsome : (a0 :: rest)[pick t % (a0 :: rest).length]? =
              some ((a0 :: rest).get
                ⟨pick t % (a0 :: rest).length, hj⟩) := by
            rw [List.getElem?_eq_getElem hj]
            simp [List.get_eq_getElem]
          have hlen1 := length_eraseIdx_of_some hsome
          obtain ⟨ihlen, ihsub⟩ := ih (t+1)
            ((a0 :: rest).eraseIdx (pick t % (a0 :: rest).length)) (by omega)
          exact ⟨by simpa using ihlen, cons_subperm_of_eraseIdx hsome ihsub⟩

/-- Embeds the default branch of `_select_elements_by_behavior` (reached
for the Casual and Researcher patterns): return the whole list when it fits
in `max_count`; otherwise weight each element by its score; if the total
weight is zero fall back to `random.sample`'s uniform draw; otherwise run
numpy's weighted draw without replacement, which raises `ValueError` when
fewer entries have non-zero weight than the requested sample size. -/
def select_default {α : Type} (scored : List (α × ℚ)) (maxCount : ℕ)
    (pick : ℕ → ℕ) : Except String (List (α × ℚ)) :=
  if scored.length ≤ maxCount then Except.ok scored
  else
    let weights := scored.map (fun e => e.2)
    let total := weights.sum
    if total = 0 then
      Except.ok (uniformSampleAux pick 0 (min maxCount scored.length) scored)
    else
      if scored.countP (fun x => 0 < x.2) < min maxCount scored.length then
        Except.error npErrFewNonzero
      else
        Except.ok (weightedSampleAux pick 0 (min maxCount scored.length) scored)

/-- C5 (amended): the default (Casual/Researcher) selection is a pure
function of the scored list, maxCount and random source, and it returns —
without error — a sample without replacement of size
`min(maxCount, |input|)` drawn from the input, provided the input already
fits in maxCount, or the total weight is zero (uniform fallback), or every
element's weight is positive.  Outside those cases (some zero-weight
elements, fewer positive weights than the sample size) the underlying
`np.random.choice` call raises `ValueError` instead of returning a sample,
so the unconditional claim fails (see the counterexample). -/
theorem C5_select_default_spec {α : Type} (scored : List (α × ℚ))
    (maxCount : ℕ) (pick : ℕ → ℕ)
    (h : scored.length ≤ maxCount ∨ (scored.map (fun e => e.2)).sum = 0 ∨
      ∀ x ∈ scored, (0:ℚ) < x.2) :
    ∃ sample, select_default scored maxCount pick = Except.ok sample ∧
      sample.length = min maxCount scored.length ∧
      sample.Subperm scored := by
  rw [select_default]
  by_cases h1 : scored.length ≤ maxCount
  · rw [if_pos h1]
    exact ⟨scored, rfl, (min_eq_right h1).symm, List.Subperm.refl _⟩
  · rw [if_neg h1]
    dsimp only
    by_cases h2 : (scored.map (fun e => e.2)).sum = 0
    · rw [if_pos h2]
      obtain ⟨hl, hs⟩ :=
        uniformSampleAux_spec pick (min maxCount scored.length) 0 scored
          (min_le_right _ _)
      exact ⟨_, rfl, hl, hs⟩
    · rw [if_neg h2]
      have hall : ∀ x ∈ scored, (0:ℚ) < x.2 := by
        rcases h with h | h | h
        · exact absurd h h1
        · exact absurd h h2
        · exact h
      have hcnt : scored.countP (fun x => 0 < x.2) = scored.length := by
        rw [List.countP_eq_length]
        intro a ha
        simpa using hall a ha
      have hnot : ¬ (scored.countP (fun x => 0 < x.2) <
          min maxCount scored.length) := by
        rw [hcnt]
        exact not_lt.mpr (min_le_right _ _)
      rw [if_neg hnot]
      obtain ⟨hl, hs, _⟩ :=
        weightedSampleAux_spec pick (min maxCount scored.length) 0 scored
          (by rw [hcnt]; exact min_le_right _ _)
      exact ⟨_, rfl, hl, hs⟩

/-- Scored list on which the default branch crashes: three elements, only
one with positive weight, sampled with `max_count = 2`. -/
def crashScored : List (ℕ × ℚ) := [(0, 1), (1, 0), (2, 0)]

/-- C5 counterexample: on `crashScored` with `max_count = 2` the list does
not fit in maxCount, the total weight is 1 ≠ 0, and only one entry has
non-zero weight although the sample size is 2 — `np.random.choice` raises
`ValueError` here, refuting the claim that the selection returns a sample
without raising for every scored list. -/
theorem C5_counterexample :
    select_default crashScored 2 (fun _ => 0) =
      Except.error npErrFewNonzero := by
  rw [select_default]
  norm_num [crashScored, List.countP_cons]

/-- Positive-weight demo list for the C5 witness. -/
def demoPosScored : List (ℕ × ℚ) := [(0, 1), (1, 2), (2, 3)]

/-- Witness for C5: on a list with all weights positive and
`max_count = 2`, the amended theorem produces an error-free sample of size
2 from the input. -/
theorem C5_select_default_witness :
    ∃ sample, select_default demoPosScored 2 (fun _ => 0) =
      Except.ok sample ∧
      sample.length = min 2 demoPosScored.length ∧
      sample.Subperm demoPosScored :=
  C5_select_default_spec demoPosScored 2 (fun _ => 0)
    (Or.inr (Or.inr (by norm_num [demoPosScored])))
